import Mathlib

/-!
Verification development for the dms_back ERP backend
(Document Lifecycle & Settlement Engine).

Shallow embedding of the settlement, procurement and sequencing code in
src/backend/routes/apPayments.js, receipts.js and procurement.js.
Monetary and quantity values are modelled as rationals; SQL rows as Lean
structures; fallible route handlers as Option/Except-returning functions;
the per-row SQL UPDATE statements as pure record updates.
-/

/-- Invoice row (ap_invoices / ar_invoices): total_amount, amount_paid
accumulator, status string. amount_due is a generated column
(total_amount - amount_paid) and is therefore not stored. -/
structure Invoice where
  total_amount : ℚ
  amount_paid : ℚ
  status : String
deriving DecidableEq, Repr

/-- One submitted application line from the request body
(invoice_id, applied_amount after Number conversion). -/
structure AppInput where
  invoice_id : Nat
  amount : ℚ
deriving DecidableEq, Repr

/-- Persisted application row (ap_payment_applications /
ar_receipt_applications). -/
structure AppRow where
  invoice_id : Nat
  applied_amount : ℚ
  unapplied_amount : ℚ
  status : String
deriving DecidableEq, Repr

/-- The invoices table, keyed by invoice_id. -/
abbrev InvTable := List (Nat × Invoice)

/-- Lookup of an invoice row by id (SELECT ... WHERE invoice_id = ?). -/
def lookupInv : InvTable → Nat → Option Invoice
  | [], _ => none
  | (k, v) :: rest, i => if k = i then some v else lookupInv rest i

/-- Point update of an invoice row by id (UPDATE ... WHERE invoice_id = ?). -/
def updateInv : InvTable → Nat → Invoice → InvTable
  | [], _, _ => []
  | (k, v) :: rest, i, nv =>
    if k = i then (k, nv) :: updateInv rest i nv else (k, v) :: updateInv rest i nv

/-- The invoice-update SQL shared by apPayments.js lines 355-364,
receipts.js lines 287-297 and apPayments.js lines 824-833:
amount_paid is incremented and status is set to PAID when
(total_amount - (amount_paid + a)) is at most 0.01, else OPEN.
The CASE expression carries no guard on the previous status. -/
def applyToInvoice (inv : Invoice) (a : ℚ) : Invoice :=
  { inv with
    amount_paid := inv.amount_paid + a,
    status := if inv.total_amount - (inv.amount_paid + a) ≤ 1/100 then "PAID" else "OPEN" }

/-- The applications loop of POST / in apPayments.js (lines 266-376):
per line it validates invoice_id (positive integer, modelled as a nonzero
Nat) and applied_amount (> 0), fetches the invoice (missing invoice
throws), records the application row with the informational
unapplied_amount snapshot, updates the invoice only when the payment is
committing (status PAID), and accumulates total applied. A thrown
validation error rolls the transaction back, modelled as none. -/
def processApps (committing : Bool) :
    List AppInput → InvTable → List AppRow → ℚ → Option (InvTable × List AppRow × ℚ)
  | [], invs, rows, total => some (invs, rows, total)
  | app :: rest, invs, rows, total =>
    if app.invoice_id = 0 then none
    else if app.amount ≤ 0 then none
    else
      match lookupInv invs app.invoice_id with
      | none => none
      | some inv =>
        let due := inv.total_amount - inv.amount_paid
        let row : AppRow := ⟨app.invoice_id, app.amount, max 0 (due - app.amount), "ACTIVE"⟩
        let invs1 := if committing then updateInv invs app.invoice_id (applyToInvoice inv app.amount) else invs
        processApps committing rest invs1 (rows ++ [row]) (total + app.amount)

/-- POST / of apPayments.js: the persisted status is DRAFT exactly when the
request status field is the string DRAFT, else PAID (line 241); invoice
balances are only touched for PAID payments (line 350). The result is
(status, amount_applied, invoices table, application rows). -/
def createPayment (status : Option String) (apps : List AppInput) (invs : InvTable) :
    Option (String × ℚ × InvTable × List AppRow) :=
  let st := if status = some "DRAFT" then "DRAFT" else "PAID"
  (processApps (st = "PAID") apps invs [] 0).map (fun r => (st, r.2.2, r.1, r.2.1))

/-- The applications loop of POST / in receipts.js (lines 170-339): unlike
the payment loop it additionally rejects an amount exceeding the invoice
amount due (line 212), and it fetches the invoice before the positivity
check. -/
def processReceiptApps (committing : Bool) :
    List AppInput → InvTable → List AppRow → ℚ → Option (InvTable × List AppRow × ℚ)
  | [], invs, rows, total => some (invs, rows, total)
  | app :: rest, invs, rows, total =>
    if app.invoice_id = 0 then none
    else
      match lookupInv invs app.invoice_id with
      | none => none
      | some inv =>
        if app.amount ≤ 0 then none
        else if app.amount > inv.total_amount - inv.amount_paid then none
        else
          let due := inv.total_amount - inv.amount_paid
          let row : AppRow := ⟨app.invoice_id, app.amount, max 0 (due - app.amount), "ACTIVE"⟩
          let invs1 := if committing then updateInv invs app.invoice_id (applyToInvoice inv app.amount) else invs
          processReceiptApps committing rest invs1 (rows ++ [row]) (total + app.amount)

/-- POST / of receipts.js: the persisted status is PAID exactly when the
request status field is the string PAID, else DRAFT (line 151); invoice
balances are only touched for PAID receipts (line 266). -/
def createReceipt (status : Option String) (apps : List AppInput) (invs : InvTable) :
    Option (String × ℚ × InvTable × List AppRow) :=
  let st := if status = some "PAID" then "PAID" else "DRAFT"
  (processReceiptApps (st = "PAID") apps invs [] 0).map (fun r => (st, r.2.2, r.1, r.2.1))

/-- PUT /:id of apPayments.js, DRAFT to PAID promotion branch (lines
460-583): the existing draft-stage application rows are deleted (line
488, modelled by starting from the empty row list, discarding
existingRows) and the submitted applications are re-processed against the
invoices current state with committing invoice updates. -/
def promoteDraftToPaid (existingRows : List AppRow) (apps : List AppInput) (invs : InvTable) :
    Option (InvTable × List AppRow × ℚ) :=
  let afterDelete : List AppRow := []
  match existingRows with
  | _ => processApps true apps invs afterDelete 0

/-- Payment header fields used by POST /:id/applications. -/
structure Payment where
  payment_amount : ℚ
  amount_applied : ℚ
deriving DecidableEq, Repr

/-- POST /:id/applications of apPayments.js (lines 747-854): rejects when
applied_amount exceeds the remaining payment amount (line 774) or the
remaining invoice amount (line 780); there is no positivity check. On
success it increments the payment amount_applied and updates the invoice
via the shared SQL. -/
def addApplication (pay : Payment) (inv : Invoice) (invoiceId : Nat) (amount : ℚ) :
    Option (Payment × Invoice × AppRow) :=
  let remainingPayment := pay.payment_amount - pay.amount_applied
  let remainingInvoice := inv.total_amount - inv.amount_paid
  if amount > remainingPayment then none
  else if amount > remainingInvoice then none
  else
    let due := inv.total_amount - inv.amount_paid
    some ({ pay with amount_applied := pay.amount_applied + amount },
          applyToInvoice inv amount,
          ⟨invoiceId, amount, max 0 (due - amount), "ACTIVE"⟩)

example : createPayment (some "DRAFT") [⟨1, 40⟩] [(1, ⟨100, 0, "OPEN"⟩)] =
    some ("DRAFT", 40, [(1, ⟨100, 0, "OPEN"⟩)], [⟨1, 40, 60, "ACTIVE"⟩]) := by
  norm_num [createPayment, processApps, lookupInv, updateInv, applyToInvoice]
  decide

example : createPayment (some "PAID") [⟨1, 40⟩] [(1, ⟨100, 0, "OPEN"⟩)] =
    some ("PAID", 40, [(1, ⟨100, 40, "OPEN"⟩)], [⟨1, 40, 60, "ACTIVE"⟩]) := by
  norm_num [createPayment, processApps, lookupInv, updateInv, applyToInvoice]
  decide

/-- Purchase-order line row (po_lines): line id and ordered quantity. -/
structure POLine where
  line_id : Nat
  quantity : ℚ
deriving DecidableEq, Repr

/-- Goods-receipt line row (po_receipt_lines): the referenced PO line and
the accepted/received quantities. -/
structure ReceiptLine where
  line_id : Nat
  quantity_accepted : ℚ
  quantity_received : ℚ
deriving DecidableEq, Repr

/-- Row set produced by the aggregation query of updatePOStatusFromReceipts
(procurement.js lines 1375-1386): po_lines LEFT JOIN po_receipt_lines ON
prl.line_id = pl.line_id. Each PO line appears once per matching receipt
line (or once with NULL receipt columns, COALESCEd to 0). -/
def leftJoinRows (lines : List POLine) (rls : List ReceiptLine) : List (ℚ × ℚ × ℚ) :=
  lines.flatMap fun pl =>
    match rls.filter (fun rl => rl.line_id = pl.line_id) with
    | [] => [(pl.quantity, 0, 0)]
    | ms => ms.map fun rl => (pl.quantity, rl.quantity_accepted, rl.quantity_received)

/-- The PO status rollup of procurement.js lines 1373-1428, as implemented:
SUM(pl.quantity), SUM(quantity_accepted) and SUM(quantity_received) are
taken over the joined row set; if total quantity is nonpositive nothing
changes; else CLOSED when accepted covers the total, else RECEIVED when
anything was received; the UPDATE carries WHERE status <> CANCELLED. -/
def updatePOStatusFromReceipts (cur : String) (lines : List POLine) (rls : List ReceiptLine) :
    String :=
  let rows := leftJoinRows lines rls
  let totalQty : ℚ := (rows.map (fun r => r.1)).sum
  let totalAccepted : ℚ := (rows.map (fun r => r.2.1)).sum
  let totalReceived : ℚ := (rows.map (fun r => r.2.2)).sum
  if totalQty ≤ 0 then cur
  else if totalAccepted ≥ totalQty then (if cur = "CANCELLED" then cur else "CLOSED")
  else if totalReceived > 0 then (if cur = "CANCELLED" then cur else "RECEIVED")
  else cur

/-- Modelled from the spec: the rollup as the spec states it — sum ordered
quantity across the PO lines themselves and sum accepted/received across
the receipts lines themselves (no join fan-out), then the same branching.
Used only to compare the intended rollup with the implemented one. -/
def specPOStatusRollup (cur : String) (lines : List POLine) (rls : List ReceiptLine) :
    String :=
  let totalQty : ℚ := (lines.map (fun l => l.quantity)).sum
  let totalAccepted : ℚ := (rls.map (fun r => r.quantity_accepted)).sum
  let totalReceived : ℚ := (rls.map (fun r => r.quantity_received)).sum
  if totalQty ≤ 0 then cur
  else if totalAccepted ≥ totalQty then (if cur = "CANCELLED" then cur else "CLOSED")
  else if totalReceived > 0 then (if cur = "CANCELLED" then cur else "RECEIVED")
  else cur

/-- Rounding used by updateInventoryFromGRN (procurement.js line 1315):
Math.round(x * 100) / 100, with Math.round(x) = floor(x + 1/2), which is
exactly Mathlib round on rationals. -/
def round2 (x : ℚ) : ℚ := ((round (100 * x) : ℤ) : ℚ) / 100

/-- One inventory delta of updateInventoryFromGRN (procurement.js lines
1284-1326) for an item with current box quantity, packets per box p and
delta accepted units: total units = box * p; on reversal the new total is
clamped at 0; the stored new box quantity retains fractional boxes rounded
to 2 decimals. -/
def applyGRNStep (box p delta : ℚ) (isReversal : Bool) : ℚ :=
  let totalUnits := box * p
  let newTotalUnits := if isReversal then max 0 (totalUnits - delta) else totalUnits + delta
  round2 (newTotalUnits / p)

/-- The old-line inventory reversal of PUT /receipts/:id (procurement.js
lines 2461-2483): the same clamped subtraction, but the new box quantity
is truncated with Math.floor and the remainder is kept as a packet
quantity via the modulo operation. Returns (box_quantity,
packet_quantity remainder). -/
def reverseFloorStep (box p delta : ℚ) : ℚ × ℚ :=
  let totalUnits := box * p
  let newTotalUnits := max 0 (totalUnits - delta)
  (((⌊newTotalUnits / p⌋ : ℤ) : ℚ), newTotalUnits - p * ((⌊newTotalUnits / p⌋ : ℤ) : ℚ))

/-- Sequence-allocation actions for the interleaving model: each database
statement is one atomic action, tagged with the caller performing it. -/
inductive SeqAction where
  | readv : Bool → SeqAction
  | incr : Bool → SeqAction
deriving DecidableEq, Repr

/-- Shared state: the counter row plus the value each caller has read. -/
structure SeqState where
  current_value : Nat
  reg1 : Option Nat
  reg2 : Option Nat
deriving DecidableEq, Repr

/-- Effect of one statement on the shared state. -/
def seqStep (s : SeqState) : SeqAction → SeqState
  | SeqAction.readv c =>
    if c then { s with reg1 := some s.current_value } else { s with reg2 := some s.current_value }
  | SeqAction.incr _ => { s with current_value := s.current_value + 1 }

/-- Execution of a schedule of statements. -/
def seqRun (s : SeqState) (sched : List SeqAction) : SeqState := List.foldl seqStep s sched

/-- The caller tag of an action. -/
def actionCaller : SeqAction → Bool
  | SeqAction.readv c => c
  | SeqAction.incr c => c

/-- The unlocked allocation of POST /purchase-orders (procurement.js lines
1573-1589): a plain SELECT of current_value with no FOR UPDATE, followed by
a separate UPDATE incrementing it — two distinct statements that other
transactions can interleave between. -/
def unlockedAllocProgram (c : Bool) : List SeqAction := [SeqAction.readv c, SeqAction.incr c]

/-- A schedule interleaving two unlocked allocators: both read before
either increments. -/
def badSchedule : List SeqAction :=
  [SeqAction.readv true, SeqAction.readv false, SeqAction.incr true, SeqAction.incr false]

/-- The locked helper getNextSequenceValue (procurement.js lines 8-30):
SELECT ... FOR UPDATE makes the read-increment atomic with respect to
other transactions, so an allocation is a single step returning the
current value and storing its successor. -/
def lockedNext (v : Nat) : Nat × Nat := (v, v + 1)

/-- Values issued by n successive serialized locked allocations. -/
def lockedRun : Nat → Nat → List Nat
  | _, 0 => []
  | v, Nat.succ n => (lockedNext v).1 :: lockedRun (lockedNext v).2 n

/-- JavaScript String.prototype.trim: strip whitespace from both ends,
written structurally over the character list so that it evaluates. -/
def jsTrim (s : String) : String :=
  String.mk (((s.data.dropWhile (fun ch => ch.isWhitespace)).reverse.dropWhile
    (fun ch => ch.isWhitespace)).reverse)

/-- JavaScript String.prototype.toUpperCase (ASCII range), written
structurally over the character list so that it evaluates. -/
def jsToUpper (s : String) : String :=
  String.mk (s.data.map Char.toUpper)

/-- Document number configuration row (po_document_numbers): preStr and
sufStr model the prefix and suffix columns; number_format is the format
string whose length is the padding width used by padStart. -/
structure DocNumberConfig where
  preStr : String
  sufStr : String
  next_number : Nat
  number_format : String
deriving DecidableEq, Repr

/-- JavaScript padStart with the zero character: pads on the left up to
width w, leaving the string unchanged when already at least that long. -/
def padStartZeros (s : String) (w : Nat) : String :=
  String.mk (List.replicate (w - s.length) '0') ++ s

/-- generateDocumentNumber (procurement.js lines 33-54) and the identical
inline generation of POST /purchase-orders (lines 1600-1610): format
preStr ++ padStart(next_number, number_format.length) ++ sufStr, then
increment next_number by one. -/
def generateDocumentNumber (c : DocNumberConfig) : String × DocNumberConfig :=
  (c.preStr ++ padStartZeros (toString c.next_number) c.number_format.length ++ c.sufStr,
   { c with next_number := c.next_number + 1 })

/-- The PO-number decision of POST /purchase-orders (lines 1592-1611 and
1689-1698): when the request carries a po_number whose trim is non-empty,
the trimmed value is used and the sequence is not advanced; otherwise a
number is generated and next_number is incremented. -/
def choosePoNumber (po_number : Option String) (c : DocNumberConfig) : String × DocNumberConfig :=
  match po_number with
  | some s => if jsTrim s = "" then generateDocumentNumber c else (jsTrim s, c)
  | none => generateDocumentNumber c

/-- Allowed purchase-order statuses (procurement.js line 2040). -/
def validStatuses : List String := ["DRAFT", "APPROVED", "RELEASED", "RECEIVED", "CLOSED", "CANCELLED"]

/-- Allowed approval statuses (procurement.js line 2041). -/
def validApprovalStatuses : List String := ["PENDING", "APPROVED", "REJECTED"]

/-- Purchase-order header fields touched by PATCH
/purchase-orders/:id/status. approved_at_set models whether the approved_at
timestamp column is populated. -/
structure POHeaderRow where
  status : String
  approval_status : String
  approved_by : Option Nat
  approved_at_set : Bool
deriving DecidableEq, Repr

/-- JavaScript presence test of the route: undefined, null and the empty
string all count as not provided. -/
def optProvided : Option String → Option String
  | none => none
  | some s => if s = "" then none else some s

/-- The approval_status half of the PATCH update (lines 2058-2078): invalid
values are rejected; APPROVED stamps approver id and timestamp; any other
valid value clears both. -/
def applyApproval (hdr : POHeaderRow) (aOpt : Option String) (uid : Option Nat) :
    Except String POHeaderRow :=
  match aOpt with
  | none => Except.ok hdr
  | some a =>
    let n := jsTrim (jsToUpper a)
    if n ∈ validApprovalStatuses then
      if n = "APPROVED" then
        Except.ok { hdr with approval_status := n, approved_by := uid, approved_at_set := true }
      else
        Except.ok { hdr with approval_status := n, approved_by := none, approved_at_set := false }
    else Except.error "InvalidApprovalStatus"

/-- The validation, stamping and UPDATE logic of PATCH
/purchase-orders/:id/status as written at procurement.js lines 2040-2084:
it validates the normalized (toUpperCase.trim) status against the allowed
set before the approval field is examined, and only after all validation
does the single UPDATE run. At runtime this code is unreachable: line
2028 throws first (see patchPOStatusRoute); it is modelled here because
it is what the handler was written to do once a connection is obtained. -/
def patchPOStatus (hdr : POHeaderRow) (status approval : Option String) (uid : Option Nat) :
    Except String POHeaderRow :=
  match optProvided status, optProvided approval with
  | none, none => Except.error "NoStatusFields"
  | none, aOpt => applyApproval hdr aOpt uid
  | some s, aOpt =>
    let n := jsTrim (jsToUpper s)
    if n ∈ validStatuses then applyApproval { hdr with status := n } aOpt uid
    else Except.error "InvalidStatus"

/-- The handler PATCH /purchase-orders/:id/status as it actually executes
(procurement.js lines 2017-2101): after the empty-fields check at lines
2023-2026 (responding 400 before any connection is made), the handler
runs line 2028, connection = await mysql.createConnection(dbConfig) — but
the module imports only pool, and neither mysql nor dbConfig is defined
anywhere in it, so this statement throws a ReferenceError on every
fielded request; the catch at lines 2090-2099 answers 500. The
validation, stamping and UPDATE code at lines 2040-2084 (patchPOStatus)
never runs. The error value carries the HTTP status and the error kind. -/
def patchPOStatusRoute (hdr : POHeaderRow) (status approval : Option String)
    (uid : Option Nat) : Except (Nat × String) POHeaderRow :=
  match optProvided status, optProvided approval with
  | none, none => Except.error (400, "NoStatusFields")
  | _, _ => Except.error (500, "ReferenceError")

/-- Observable resource effects of a route handler, in program order. -/
inductive RouteEff where
  | beganTransaction
  | rolledBack
  | released
  | responded : Nat → RouteEff
deriving DecidableEq, Repr

/-- Branch conditions of POST /agreements: which validations pass and which
insert statements throw. -/
structure AgreementsInput where
  has_supplier : Bool
  has_number : Bool
  supplier_found : Bool
  header_insert_throws : Bool
  line_insert_throws : Bool
deriving DecidableEq, Repr

/-- Effect trace of POST /agreements (procurement.js lines 463-654). Each
validation failure explicitly rolls back, releases and responds 400; the
success path releases and responds 201; a thrown insert error lands in the
catch block at lines 644-653, which logs and responds 500 without calling
connection.release (and without rollback). -/
def postAgreementsEffects (i : AgreementsInput) : List RouteEff :=
  if !i.has_supplier then
    [RouteEff.beganTransaction, RouteEff.rolledBack, RouteEff.released, RouteEff.responded 400]
  else if !i.has_number then
    [RouteEff.beganTransaction, RouteEff.rolledBack, RouteEff.released, RouteEff.responded 400]
  else if !i.supplier_found then
    [RouteEff.beganTransaction, RouteEff.rolledBack, RouteEff.released, RouteEff.responded 400]
  else if i.header_insert_throws then
    [RouteEff.beganTransaction, RouteEff.responded 500]
  else if i.line_insert_throws then
    [RouteEff.beganTransaction, RouteEff.responded 500]
  else
    [RouteEff.beganTransaction, RouteEff.released, RouteEff.responded 201]

/-- Branch conditions of PUT /receipts/:id. -/
structure ReceiptsPutInput where
  receipt_found : Bool
  any_step_throws : Bool
deriving DecidableEq, Repr

/-- Effect trace of PUT /receipts/:id (procurement.js lines 2392-2600):
the not-found path rolls back, releases and responds 404; the success path
releases and responds 200; any thrown statement lands in the catch block
at lines 2596-2599, which responds 500 without calling connection.release. -/
def putReceiptEffects (i : ReceiptsPutInput) : List RouteEff :=
  if !i.receipt_found then
    [RouteEff.beganTransaction, RouteEff.rolledBack, RouteEff.released, RouteEff.responded 404]
  else if i.any_step_throws then
    [RouteEff.beganTransaction, RouteEff.responded 500]
  else
    [RouteEff.beganTransaction, RouteEff.released, RouteEff.responded 200]

/-- Sum of the submitted applied amounts that target invoice i. -/
def sumAppliedTo (i : Nat) (apps : List AppInput) : ℚ :=
  ((apps.filter (fun a => a.invoice_id = i)).map (fun a => a.amount)).sum

lemma lookupInv_updateInv_self (invs : InvTable) (i : Nat) (v : Invoice)
    (h : (lookupInv invs i).isSome) : lookupInv (updateInv invs i v) i = some v := by
  induction invs with
  | nil => simp [lookupInv] at h
  | cons hd tl ih =>
    obtain ⟨k, w⟩ := hd
    by_cases hk : k = i
    · simp [lookupInv, updateInv, hk]
    · simp [lookupInv, updateInv, hk] at h ⊢
      exact ih h

lemma lookupInv_updateInv_ne (invs : InvTable) (i j : Nat) (v : Invoice)
    (h : j ≠ i) : lookupInv (updateInv invs i v) j = lookupInv invs j := by
  induction invs with
  | nil => simp [updateInv]
  | cons hd tl ih =>
    obtain ⟨k, w⟩ := hd
    by_cases hk : k = i
    · subst hk
      simp [lookupInv, updateInv, Ne.symm h, ih]
    · by_cases hkj : k = j
      · subst hkj
        simp [lookupInv, updateInv, hk]
      · simp [lookupInv, updateInv, hk, hkj, ih]

lemma lookupInv_updateInv_isSome (i j : Nat) (v : Invoice) :
    ∀ invs : InvTable, (lookupInv (updateInv invs i v) j).isSome = (lookupInv invs j).isSome := by
  intro invs
  induction invs with
  | nil => simp [updateInv]
  | cons hd tl ih =>
    obtain ⟨k, w⟩ := hd
    by_cases hk : k = i
    · subst hk
      by_cases hkj : k = j
      · subst hkj
        simp [lookupInv, updateInv]
      · simp [lookupInv, updateInv, hkj, ih]
    · by_cases hkj : k = j
      · subst hkj
        simp [lookupInv, updateInv, hk]
      · simp [lookupInv, updateInv, hk, hkj, ih]

lemma processApps_not_committing :
    ∀ (apps : List AppInput) (invs : InvTable) (rows : List AppRow) (total : ℚ)
      (out : InvTable × List AppRow × ℚ),
      processApps false apps invs rows total = some out → out.1 = invs := by
  intro apps
  induction apps with
  | nil =>
    intro invs rows total out h
    simp only [processApps, Option.some.injEq] at h
    rw [← h]
  | cons app rest ih =>
    intro invs rows total out h
    by_cases h0 : app.invoice_id = 0
    · simp [processApps, h0] at h
    · by_cases ha : app.amount ≤ 0
      · simp [processApps, h0, ha] at h
      · cases hl : lookupInv invs app.invoice_id with
        | none => simp [processApps, h0, ha, hl] at h
        | some inv =>
          simp only [processApps, h0, ha, hl, if_false, Bool.false_eq_true,
            reduceIte] at h
          exact ih invs _ _ out h

lemma processReceiptApps_not_committing :
    ∀ (apps : List AppInput) (invs : InvTable) (rows : List AppRow) (total : ℚ)
      (out : InvTable × List AppRow × ℚ),
      processReceiptApps false apps invs rows total = some out → out.1 = invs := by
  intro apps
  induction apps with
  | nil =>
    intro invs rows total out h
    simp only [processReceiptApps, Option.some.injEq] at h
    rw [← h]
  | cons app rest ih =>
    intro invs rows total out h
    by_cases h0 : app.invoice_id = 0
    · simp [processReceiptApps, h0] at h
    · cases hl : lookupInv invs app.invoice_id with
      | none => simp [processReceiptApps, h0, hl] at h
      | some inv =>
        by_cases ha : app.amount ≤ 0
        · simp [processReceiptApps, h0, hl, ha] at h
        · by_cases hd : app.amount > inv.total_amount - inv.amount_paid
          · simp [processReceiptApps, h0, hl, ha, hd] at h
          · simp only [processReceiptApps, h0, hl, ha, hd, if_false, Bool.false_eq_true,
              reduceIte] at h
            exact ih invs _ _ out h

lemma sumAppliedTo_cons (i : Nat) (app : AppInput) (rest : List AppInput) :
    sumAppliedTo i (app :: rest) =
      (if app.invoice_id = i then app.amount else 0) + sumAppliedTo i rest := by
  by_cases h : app.invoice_id = i
  · simp [sumAppliedTo, h]
  · simp [sumAppliedTo, h]

lemma processApps_amount_paid :
    ∀ (apps : List AppInput) (invs : InvTable) (rows : List AppRow) (total : ℚ)
      (invs2 : InvTable) (rows2 : List AppRow) (total2 : ℚ) (i : Nat) (inv : Invoice),
      processApps true apps invs rows total = some (invs2, rows2, total2) →
      lookupInv invs i = some inv →
      ∃ inv2, lookupInv invs2 i = some inv2 ∧
        inv2.amount_paid = inv.amount_paid + sumAppliedTo i apps := by
  intro apps
  induction apps with
  | nil =>
    intro invs rows total invs2 rows2 total2 i inv h hl
    simp only [processApps, Option.some.injEq, Prod.mk.injEq] at h
    obtain ⟨h1, h2, h3⟩ := h
    exact ⟨inv, by rw [← h1]; exact hl, by simp [sumAppliedTo]⟩
  | cons app rest ih =>
    intro invs rows total invs2 rows2 total2 i inv h hl
    by_cases h0 : app.invoice_id = 0
    · simp [processApps, h0] at h
    · by_cases ha : app.amount ≤ 0
      · simp [processApps, h0, ha] at h
      · cases hfetch : lookupInv invs app.invoice_id with
        | none => simp [processApps, h0, ha, hfetch] at h
        | some inv0 =>
          simp only [processApps, h0, ha, hfetch, if_false, reduceIte] at h
          by_cases hi : app.invoice_id = i
          · subst hi
            have heq : inv0 = inv := by
              rw [hfetch] at hl
              exact Option.some.inj hl
            subst heq
            have hl2 : lookupInv (updateInv invs app.invoice_id (applyToInvoice inv0 app.amount))
                app.invoice_id = some (applyToInvoice inv0 app.amount) :=
              lookupInv_updateInv_self invs app.invoice_id _ (by simp [hfetch])
            obtain ⟨inv2, hfind, hpaid⟩ := ih _ _ _ _ _ _ _ _ h hl2
            refine ⟨inv2, hfind, ?_⟩
            rw [hpaid]
            simp [applyToInvoice, sumAppliedTo_cons]
            ring
          · have hl2 : lookupInv (updateInv invs app.invoice_id (applyToInvoice inv0 app.amount))
                i = some inv := by
              rw [lookupInv_updateInv_ne invs app.invoice_id i _ (Ne.symm hi)]
              exact hl
            obtain ⟨inv2, hfind, hpaid⟩ := ih _ _ _ _ _ _ _ _ h hl2
            refine ⟨inv2, hfind, ?_⟩
            rw [hpaid, sumAppliedTo_cons]
            simp [hi]

lemma processApps_nonpos_none :
    ∀ (c : Bool) (apps : List AppInput) (invs : InvTable) (rows : List AppRow) (total : ℚ)
      (a : AppInput), a ∈ apps → a.amount ≤ 0 →
      processApps c apps invs rows total = none := by
  intro c apps
  induction apps with
  | nil =>
    intro invs rows total a hmem hneg
    simp at hmem
  | cons app rest ih =>
    intro invs rows total a hmem hneg
    by_cases h0 : app.invoice_id = 0
    · simp [processApps, h0]
    · by_cases hamt : app.amount ≤ 0
      · simp [processApps, h0, hamt]
      · rcases List.mem_cons.mp hmem with heq | hrest
        · subst heq
          exact absurd hneg hamt
        · cases hfetch : lookupInv invs app.invoice_id with
          | none => simp [processApps, h0, hamt, hfetch]
          | some inv =>
            simp only [processApps, if_neg h0, if_neg hamt, hfetch]
            exact ih _ _ _ a hrest hneg

lemma processApps_valid_isSome :
    ∀ (c : Bool) (apps : List AppInput) (invs : InvTable) (rows : List AppRow) (total : ℚ),
      (∀ a ∈ apps, a.invoice_id ≠ 0 ∧ 0 < a.amount ∧ (lookupInv invs a.invoice_id).isSome) →
      (processApps c apps invs rows total).isSome := by
  intro c apps
  induction apps with
  | nil =>
    intro invs rows total hva
    simp [processApps]
  | cons app rest ih =>
    intro invs rows total hva
    obtain ⟨h0, ha, hs⟩ := hva app (by simp)
    obtain ⟨inv, hfetch⟩ := Option.isSome_iff_exists.mp hs
    have ha2 : ¬ app.amount ≤ 0 := not_le.mpr ha
    simp only [processApps, if_neg h0, if_neg ha2, hfetch]
    apply ih
    intro a hmem
    obtain ⟨h0a, haa, hsa⟩ := hva a (by simp [hmem])
    refine ⟨h0a, haa, ?_⟩
    cases c with
    | false => simpa using hsa
    | true =>
      simp only [reduceIte]
      rw [lookupInv_updateInv_isSome]
      exact hsa

/-- C1 counterexample: the claim says a DRAFT/CANCELLED/VOID invoice status
is never changed, but the UPDATE of apPayments.js lines 355-364 carries no
guard on the previous status: applying 10 of a PAID payment to a CANCELLED
invoice of total 100 rewrites its status to OPEN. -/
theorem c1_counterexample :
    createPayment (some "PAID") [⟨1, 10⟩] [(1, ⟨100, 0, "CANCELLED"⟩)] =
      some ("PAID", 10, [(1, ⟨100, 10, "OPEN"⟩)], [⟨1, 10, 90, "ACTIVE"⟩]) ∧
    ("OPEN" : String) ≠ "CANCELLED" := by
  constructor
  · norm_num [createPayment, processApps, lookupInv, updateInv, applyToInvoice]
    decide
  · decide

/-- C1 as amended: for an invoice update performed while the parent payment
is committing (status PAID), applying an application of amount a sets
amount_paid to its previous value plus a and sets status to PAID when
(total_amount - new amount_paid) is at most 0.01 and OPEN otherwise,
unconditionally overwriting any previous status (including DRAFT,
CANCELLED and VOID). -/
theorem c1_committed_application_updates_invoice
    (invs : InvTable) (i : Nat) (inv : Invoice) (a : ℚ)
    (st : String) (total : ℚ) (invs2 : InvTable) (rows : List AppRow)
    (hlook : lookupInv invs i = some inv)
    (h : createPayment (some "PAID") [⟨i, a⟩] invs = some (st, total, invs2, rows)) :
    lookupInv invs2 i = some
      { total_amount := inv.total_amount
        amount_paid := inv.amount_paid + a
        status := if inv.total_amount - (inv.amount_paid + a) ≤ 1/100 then "PAID" else "OPEN" } := by
  by_cases h0 : i = 0
  · simp [createPayment, processApps, h0] at h
  · by_cases ha : a ≤ 0
    · simp [createPayment, processApps, h0, ha] at h
    · simp only [createPayment, processApps] at h
      simp [h0, ha, hlook] at h
      obtain ⟨h1, h2, h3, h4⟩ := h
      rw [← h3, lookupInv_updateInv_self invs i _ (by simp [hlook])]
      simp [applyToInvoice]

/-- C1 witness: concrete instance of the amended invoice-update theorem at
an OPEN invoice of total 100 with an application of 10. -/
theorem c1_witness :
    lookupInv [(1, (⟨100, 10, "OPEN"⟩ : Invoice))] 1 = some
      { total_amount := 100
        amount_paid := 0 + 10
        status := if (100 : ℚ) - (0 + 10) ≤ 1/100 then "PAID" else "OPEN" } :=
  c1_committed_application_updates_invoice [(1, ⟨100, 0, "OPEN"⟩)] 1 ⟨100, 0, "OPEN"⟩ 10
    "PAID" 10 [(1, ⟨100, 10, "OPEN"⟩)] [⟨1, 10, 90, "ACTIVE"⟩]
    (by norm_num [lookupInv])
    (by norm_num [createPayment, processApps, lookupInv, updateInv, applyToInvoice]; decide)

/-- C2: a DRAFT payment or receipt creation with applications leaves every
invoice row unchanged (only application rows and the amount_applied
accumulator are produced); promoting DRAFT to PAID discards the existing
application rows and reprocesses the submitted applications against the
invoices current state, after which each invoice's amount_paid has grown
by exactly the sum of the amounts applied to it. -/
theorem c2_draft_frame_and_promotion :
    (∀ (apps : List AppInput) (invs : InvTable) (st : String) (total : ℚ)
        (invs2 : InvTable) (rows : List AppRow),
        createPayment (some "DRAFT") apps invs = some (st, total, invs2, rows) → invs2 = invs) ∧
    (∀ (apps : List AppInput) (invs : InvTable) (st : String) (total : ℚ)
        (invs2 : InvTable) (rows : List AppRow),
        createReceipt (some "DRAFT") apps invs = some (st, total, invs2, rows) → invs2 = invs) ∧
    (∀ (existingRows : List AppRow) (apps : List AppInput) (invs : InvTable),
        promoteDraftToPaid existingRows apps invs = processApps true apps invs [] 0) ∧
    (∀ (existingRows : List AppRow) (apps : List AppInput) (invs : InvTable)
        (invs2 : InvTable) (rows : List AppRow) (total : ℚ) (i : Nat) (inv : Invoice),
        promoteDraftToPaid existingRows apps invs = some (invs2, rows, total) →
        lookupInv invs i = some inv →
        ∃ inv2, lookupInv invs2 i = some inv2 ∧
          inv2.amount_paid = inv.amount_paid + sumAppliedTo i apps) := by
  have hpromote : ∀ (existingRows : List AppRow) (apps : List AppInput) (invs : InvTable),
      promoteDraftToPaid existingRows apps invs = processApps true apps invs [] 0 := by
    intro e apps invs
    cases e <;> rfl
  refine ⟨?_, ?_, hpromote, ?_⟩
  · intro apps invs st total invs2 rows h
    have hb : (decide ((("DRAFT" : String)) = "PAID")) = false := by decide
    simp only [createPayment, if_true, hb] at h
    cases hp : processApps false apps invs [] 0 with
    | none =>
      rw [hp] at h
      simp at h
    | some r =>
      rw [hp] at h
      simp only [Option.map_some', Option.some.injEq, Prod.mk.injEq] at h
      obtain ⟨h1, h2, h3, h4⟩ := h
      rw [← h3]
      exact processApps_not_committing apps invs [] 0 r hp
  · intro apps invs st total invs2 rows h
    have hne : ((some "DRAFT" : Option String) = some "PAID") = False := by simp
    have hb : (decide ((("DRAFT" : String)) = "PAID")) = false := by decide
    simp only [createReceipt, hne, if_false, if_true, hb] at h
    cases hp : processReceiptApps false apps invs [] 0 with
    | none =>
      rw [hp] at h
      simp at h
    | some r =>
      rw [hp] at h
      simp only [Option.map_some', Option.some.injEq, Prod.mk.injEq] at h
      obtain ⟨h1, h2, h3, h4⟩ := h
      rw [← h3]
      exact processReceiptApps_not_committing apps invs [] 0 r hp
  · intro e apps invs invs2 rows total i inv h hl
    rw [hpromote] at h
    exact processApps_amount_paid apps invs [] 0 invs2 rows total i inv h hl

/-- C2 witness: a DRAFT payment applying 40 against an invoice with 100 due
leaves the invoice row untouched; promoting it commits amount_paid 40. -/
theorem c2_witness :
    (([(1, (⟨100, 0, "OPEN"⟩ : Invoice))] : InvTable) = [(1, ⟨100, 0, "OPEN"⟩)]) ∧
    (∃ inv2, lookupInv [(1, (⟨100, 40, "OPEN"⟩ : Invoice))] 1 = some inv2 ∧
      inv2.amount_paid = (0 : ℚ) + sumAppliedTo 1 [⟨1, 40⟩]) := by
  constructor
  · exact c2_draft_frame_and_promotion.1 [⟨1, 40⟩] [(1, ⟨100, 0, "OPEN"⟩)] "DRAFT" 40
      [(1, ⟨100, 0, "OPEN"⟩)] [⟨1, 40, 60, "ACTIVE"⟩]
      (by norm_num [createPayment, processApps, lookupInv, updateInv, applyToInvoice]
          decide)
  · exact c2_draft_frame_and_promotion.2.2.2 [] [⟨1, 40⟩] [(1, ⟨100, 0, "OPEN"⟩)]
      [(1, ⟨100, 40, "OPEN"⟩)] [⟨1, 40, 60, "ACTIVE"⟩] 40 1 ⟨100, 0, "OPEN"⟩
      (by rw [c2_draft_frame_and_promotion.2.2.1]
          norm_num [processApps, lookupInv, updateInv, applyToInvoice])
      (by norm_num [lookupInv])

/-- C3 counterexample: creating a PAID payment whose single application of
50 exceeds both the invoice amount due (20) and any sensible remaining
payment amount is accepted and mutates the invoice (apPayments.js lines
296-305 validate only positivity); and POST /:id/applications accepts a
negative applied amount of -5 (lines 770-785 have no positivity check),
mutating payment and invoice. -/
theorem c3_counterexample :
    createPayment (some "PAID") [⟨1, 50⟩] [(1, ⟨20, 0, "OPEN"⟩)] =
      some ("PAID", 50, [(1, ⟨20, 50, "PAID"⟩)], [⟨1, 50, 0, "ACTIVE"⟩]) ∧
    addApplication ⟨100, 0⟩ ⟨50, 0, "OPEN"⟩ 1 (-5) =
      some (⟨100, -5⟩, ⟨50, -5, "OPEN"⟩, ⟨1, -5, 55, "ACTIVE"⟩) := by
  constructor
  · norm_num [createPayment, processApps, lookupInv, updateInv, applyToInvoice]
    decide
  · norm_num [addApplication, applyToInvoice]

/-- C3 as amended: when creating a payment, an application line with
non-positive amount (or an unknown invoice) is rejected with no state
change, but amounts exceeding the invoice amount due or the remaining
payment amount are accepted; when adding an application to an existing
payment, amounts exceeding the remaining payment amount or the remaining
invoice amount are rejected, but non-positive amounts are accepted. -/
theorem c3_validation_as_implemented :
    (∀ (c : Bool) (apps : List AppInput) (invs : InvTable) (rows : List AppRow) (total : ℚ)
        (a : AppInput), a ∈ apps → a.amount ≤ 0 →
        processApps c apps invs rows total = none) ∧
    (∀ (apps : List AppInput) (invs : InvTable),
        (∀ a ∈ apps, a.invoice_id ≠ 0 ∧ 0 < a.amount ∧ (lookupInv invs a.invoice_id).isSome) →
        (processApps true apps invs [] 0).isSome) ∧
    (∀ (pay : Payment) (inv : Invoice) (i : Nat) (amt : ℚ),
        amt > pay.payment_amount - pay.amount_applied → addApplication pay inv i amt = none) ∧
    (∀ (pay : Payment) (inv : Invoice) (i : Nat) (amt : ℚ),
        amt > inv.total_amount - inv.amount_paid → addApplication pay inv i amt = none) ∧
    (∀ (pay : Payment) (inv : Invoice) (i : Nat) (amt : ℚ),
        amt ≤ pay.payment_amount - pay.amount_applied →
        amt ≤ inv.total_amount - inv.amount_paid →
        (addApplication pay inv i amt).isSome) := by
  refine ⟨processApps_nonpos_none, ?_, ?_, ?_, ?_⟩
  · intro apps invs h
    exact processApps_valid_isSome true apps invs [] 0 h
  · intro pay inv i amt h
    simp [addApplication, h]
  · intro pay inv i amt h
    by_cases h1 : amt > pay.payment_amount - pay.amount_applied
    · simp [addApplication, h1]
    · simp [addApplication, h1, h]
  · intro pay inv i amt h1 h2
    simp [addApplication, not_lt.mpr h1, not_lt.mpr h2]

/-- C3 witness: concrete instances — over-application of 50 against a
20-due invoice is accepted at creation, and a negative amount is accepted
by the add-application endpoint. -/
theorem c3_witness :
    (processApps true [⟨1, 50⟩] [(1, ⟨20, 0, "OPEN"⟩)] [] 0).isSome ∧
    (addApplication ⟨100, 0⟩ ⟨50, 0, "OPEN"⟩ 1 (-5)).isSome := by
  constructor
  · exact c3_validation_as_implemented.2.1 [⟨1, 50⟩] [(1, ⟨20, 0, "OPEN"⟩)]
      (by
        intro a ha
        simp only [List.mem_singleton] at ha
        subst ha
        refine ⟨by decide, by norm_num, by simp [lookupInv]⟩)
  · exact c3_validation_as_implemented.2.2.2.2 ⟨100, 0⟩ ⟨50, 0, "OPEN"⟩ 1 (-5)
      (by norm_num) (by norm_num)

/-- C10: the persisted status of a created payment is DRAFT exactly when
the request status equals the string DRAFT and PAID for every other value,
in which case the whole operation behaves identically to an explicit PAID
request (committing invoice updates); receipt creation mirrors this with
PAID and DRAFT exchanged. -/
theorem c10_status_defaults :
    (∀ (s : Option String) (apps : List AppInput) (invs : InvTable) (st : String) (total : ℚ)
        (invs2 : InvTable) (rows : List AppRow),
        createPayment s apps invs = some (st, total, invs2, rows) →
        (st = "DRAFT" ↔ s = some "DRAFT")) ∧
    (∀ (s : Option String) (apps : List AppInput) (invs : InvTable), s ≠ some "DRAFT" →
        createPayment s apps invs = createPayment (some "PAID") apps invs) ∧
    (∀ (s : Option String) (apps : List AppInput) (invs : InvTable) (st : String) (total : ℚ)
        (invs2 : InvTable) (rows : List AppRow),
        createReceipt s apps invs = some (st, total, invs2, rows) →
        (st = "PAID" ↔ s = some "PAID")) ∧
    (∀ (s : Option String) (apps : List AppInput) (invs : InvTable), s ≠ some "PAID" →
        createReceipt s apps invs = createReceipt (some "DRAFT") apps invs) := by
  refine ⟨?_, ?_, ?_, ?_⟩
  · intro s apps invs st total invs2 rows h
    simp only [createPayment] at h
    obtain ⟨r, hr, hf⟩ := Option.map_eq_some'.mp h
    have hst : (if s = some "DRAFT" then "DRAFT" else "PAID") = st :=
      ((Prod.mk.injEq _ _ _ _).mp hf).1
    by_cases hs : s = some "DRAFT"
    · rw [← hst, if_pos hs]
      simp [hs]
    · rw [← hst, if_neg hs]
      constructor
      · intro hcontra
        exact absurd hcontra (by decide)
      · intro hcontra
        exact absurd hcontra hs
  · intro s apps invs hs
    have hfalse : (s = some "DRAFT") = False := by simp [hs]
    simp [createPayment, hfalse]
  · intro s apps invs st total invs2 rows h
    simp only [createReceipt] at h
    obtain ⟨r, hr, hf⟩ := Option.map_eq_some'.mp h
    have hst : (if s = some "PAID" then "PAID" else "DRAFT") = st :=
      ((Prod.mk.injEq _ _ _ _).mp hf).1
    by_cases hs : s = some "PAID"
    · rw [← hst, if_pos hs]
      simp [hs]
    · rw [← hst, if_neg hs]
      constructor
      · intro hcontra
        exact absurd hcontra (by decide)
      · intro hcontra
        exact absurd hcontra hs
  · intro s apps invs hs
    have hfalse : (s = some "PAID") = False := by simp [hs]
    simp [createReceipt, hfalse]

/-- C10 witness: an unrecognized lowercase status string yields a PAID
payment that behaves exactly like an explicit PAID request. -/
theorem c10_witness :
    (("PAID" : String) = "DRAFT" ↔ (some "draft" : Option String) = some "DRAFT") ∧
    createPayment (some "draft") [⟨1, 40⟩] [(1, ⟨100, 0, "OPEN"⟩)] =
      createPayment (some "PAID") [⟨1, 40⟩] [(1, ⟨100, 0, "OPEN"⟩)] := by
  constructor
  · exact c10_status_defaults.1 (some "draft") [] [] "PAID" 0 [] []
      (by norm_num [createPayment, processApps]
          decide)
  · exact c10_status_defaults.2.1 (some "draft") [⟨1, 40⟩] [(1, ⟨100, 0, "OPEN"⟩)]
      (by decide)

/-- C4: the rollup as implemented sums ordered quantity over the joined
row set, so a PO line is counted once per matching receipt line. One line
of 10 with a first receipt accepting 7 yields RECEIVED as the claim says;
but after a second receipt accepting the remaining 3 the join doubles the
ordered total to 20 against 10 accepted, leaving the status RECEIVED,
whereas the rollup described by the spec (and by the comment above the
code) closes the order. -/
theorem c4_rollup_join_fanout :
    updatePOStatusFromReceipts "APPROVED" [⟨1, 10⟩] [⟨1, 7, 7⟩] = "RECEIVED" ∧
    specPOStatusRollup "APPROVED" [⟨1, 10⟩] [⟨1, 7, 7⟩] = "RECEIVED" ∧
    updatePOStatusFromReceipts "RECEIVED" [⟨1, 10⟩] [⟨1, 7, 7⟩, ⟨1, 3, 3⟩] = "RECEIVED" ∧
    specPOStatusRollup "RECEIVED" [⟨1, 10⟩] [⟨1, 7, 7⟩, ⟨1, 3, 3⟩] = "CLOSED" := by
  refine ⟨?_, ?_, ?_, ?_⟩
  · norm_num [updatePOStatusFromReceipts, leftJoinRows, List.filter, List.flatMap]
    decide
  · norm_num [specPOStatusRollup]
    decide
  · norm_num [updatePOStatusFromReceipts, leftJoinRows, List.filter, List.flatMap]
  · norm_num [specPOStatusRollup]
    decide

lemma abs_round2_sub_le (x : ℚ) : |round2 x - x| ≤ 1/200 := by
  have h : |(100 : ℚ) * x - (round ((100 : ℚ) * x) : ℤ)| ≤ 1/2 := abs_sub_round ((100 : ℚ) * x)
  have hx : round2 x - x = -(((100 : ℚ) * x - (round ((100 : ℚ) * x) : ℤ)) / 100) := by
    rw [round2]
    field_simp
  rw [hx, abs_neg, abs_div]
  have h100 : |(100 : ℚ)| = 100 := by norm_num
  rw [h100]
  linarith

/-- C5 counterexample: apply 1 accepted unit to an item holding half a box
of 2 packets per box through updateInventoryFromGRN, then reverse it
through the floor/modulo path of PUT /receipts/:id — box_quantity lands at
0 instead of returning to 0.5, off by far more than the 0.01 tolerance,
because that reversal path truncates instead of keeping fractional boxes. -/
theorem c5_counterexample :
    applyGRNStep (1/2) 2 1 false = 1 ∧
    reverseFloorStep (applyGRNStep (1/2) 2 1 false) 2 1 = (0, 1) ∧
    ¬ |(reverseFloorStep (applyGRNStep (1/2) 2 1 false) 2 1).1 - 1/2| ≤ 1/100 := by
  have h1 : applyGRNStep (1/2) 2 1 false = 1 := by
    norm_num [applyGRNStep, round2, round_eq]
  refine ⟨h1, ?_, ?_⟩
  · rw [h1]
    norm_num [reverseFloorStep]
  · rw [h1]
    norm_num [reverseFloorStep]
    rw [abs_of_pos (show (0 : ℚ) < 1/2 by norm_num)]
    norm_num

/-- C5 as amended: the round-trip does hold for the rounded path — applying
a positive delta through updateInventoryFromGRN and reversing the same
delta through the same function returns box_quantity to within 0.01 of its
pre-apply value, for any positive packets_per_box; the floor/modulo
reversal of PUT /receipts/:id does not satisfy this. -/
theorem c5_roundtrip_rounded_paths (box p delta : ℚ)
    (hp : 0 < p) (hbox : 0 ≤ box) (hdelta : 0 < delta) :
    |applyGRNStep (applyGRNStep box p delta false) p delta true - box| ≤ 1/100 := by
  have hpne : p ≠ 0 := ne_of_gt hp
  have h1 : applyGRNStep box p delta false = round2 ((box * p + delta) / p) := by
    simp [applyGRNStep]
  set b1 := round2 ((box * p + delta) / p) with hb1def
  set e := b1 - (box * p + delta) / p with hedef
  have he : |e| ≤ 1/200 := abs_round2_sub_le _
  have hkey : b1 * p - delta = (box + e) * p := by
    have hb : b1 = (box * p + delta) / p + e := by
      rw [hedef]
      ring
    rw [hb]
    field_simp
    ring
  rw [h1]
  by_cases hcase : 0 ≤ (box + e) * p
  · have hmax : max 0 (b1 * p - delta) = (box + e) * p := by
      rw [hkey]
      exact max_eq_right hcase
    have harg : max 0 (b1 * p - delta) / p = box + e := by
      rw [hmax]
      field_simp
    have hstep : applyGRNStep b1 p delta true = round2 (box + e) := by
      simp [applyGRNStep, harg]
    rw [hstep]
    have h2 : |round2 (box + e) - (box + e)| ≤ 1/200 := abs_round2_sub_le _
    calc |round2 (box + e) - box|
        = |(round2 (box + e) - (box + e)) + e| := by ring_nf
      _ ≤ |round2 (box + e) - (box + e)| + |e| := abs_add _ _
      _ ≤ 1/200 + 1/200 := add_le_add h2 he
      _ = 1/100 := by norm_num
  · push_neg at hcase
    have hbe : box + e < 0 := by
      by_contra hc
      push_neg at hc
      exact absurd (mul_nonneg hc (le_of_lt hp)) (not_le.mpr hcase)
    have hmax : max 0 (b1 * p - delta) = 0 := by
      rw [hkey]
      exact max_eq_left (le_of_lt hcase)
    have hstep : applyGRNStep b1 p delta true = round2 0 := by
      simp [applyGRNStep, hmax]
    have hr0 : round2 (0 : ℚ) = 0 := by
      simp [round2]
    rw [hstep, hr0, zero_sub, abs_neg, abs_of_nonneg hbox]
    have hneg : -e ≤ |e| := neg_le_abs e
    linarith

/-- C5 witness: the rounded round-trip at box 0.5, packets_per_box 2,
delta 1 returns exactly to 0.5. -/
theorem c5_witness :
    |applyGRNStep (applyGRNStep (1/2) 2 1 false) 2 1 true - 1/2| ≤ 1/100 :=
  c5_roundtrip_rounded_paths (1/2) 2 1 (by norm_num) (by norm_num) (by norm_num)

lemma lockedRun_mem (n : Nat) : ∀ (v x : Nat), x ∈ lockedRun v n → v ≤ x := by
  induction n with
  | zero =>
    intro v x hx
    simp [lockedRun] at hx
  | succ m ih =>
    intro v x hx
    simp only [lockedRun, lockedNext, List.mem_cons] at hx
    rcases hx with h | h
    · exact le_of_eq h.symm
    · exact le_trans (Nat.le_succ v) (ih (v + 1) x h)

lemma lockedRun_pairwise (n : Nat) : ∀ v : Nat, (lockedRun v n).Pairwise (fun x y => x < y) := by
  induction n with
  | zero =>
    intro v
    simp [lockedRun]
  | succ m ih =>
    intro v
    simp only [lockedRun, lockedNext]
    refine List.Pairwise.cons ?_ (ih (v + 1))
    intro x hx
    exact lt_of_lt_of_le (Nat.lt_succ_self v) (lockedRun_mem m (v + 1) x hx)

/-- C6: the schedule badSchedule is a genuine interleaving of two unlocked
POST /purchase-orders allocations (each caller performs its own read then
its own increment, in order), yet starting from counter value 5 both
callers read the same header id 5 — duplicating the issued value. The
locked helper getNextSequenceValue, whose FOR UPDATE makes the
read-increment one atomic step, issues strictly increasing distinct values
(5 then 6 in the same situation). -/
theorem c6_unlocked_sequence_duplicate :
    badSchedule.filter (fun a => actionCaller a = true) = unlockedAllocProgram true ∧
    badSchedule.filter (fun a => actionCaller a = false) = unlockedAllocProgram false ∧
    (seqRun ⟨5, none, none⟩ badSchedule).reg1 = some 5 ∧
    (seqRun ⟨5, none, none⟩ badSchedule).reg2 = some 5 ∧
    lockedRun 5 2 = [5, 6] ∧
    (∀ (v n : Nat), (lockedRun v n).Pairwise (fun x y => x < y)) := by
  refine ⟨by decide, by decide, by decide, by decide, by decide, ?_⟩
  intro v n
  exact lockedRun_pairwise n v

/-- C7: a generated document number is preStr ++ zero-padded next_number
++ sufStr, padded to the width given by the number_format column, and
next_number advances by exactly one with no other config change; when the
caller supplies a number with non-blank content, the trimmed supplied
number is used and the config is left completely unchanged. -/
theorem c7_document_number_generation :
    (∀ c : DocNumberConfig,
        (generateDocumentNumber c).1 =
          c.preStr ++ padStartZeros (toString c.next_number) c.number_format.length ++ c.sufStr ∧
        (generateDocumentNumber c).2 =
          { c with next_number := c.next_number + 1 }) ∧
    (∀ (s : String) (w : Nat), (padStartZeros s w).length = max w s.length) ∧
    (∀ (s : String) (c : DocNumberConfig), jsTrim s ≠ "" →
        choosePoNumber (some s) c = (jsTrim s, c)) ∧
    (∀ c : DocNumberConfig, choosePoNumber none c = generateDocumentNumber c) := by
  refine ⟨?_, ?_, ?_, ?_⟩
  · intro c
    exact ⟨rfl, rfl⟩
  · intro s w
    simp only [padStartZeros, String.length_append]
    have hmk : (String.mk (List.replicate (w - s.length) '0')).length =
        w - s.length := by
      show (List.replicate (w - s.length) '0').length = w - s.length
      exact List.length_replicate _ _
    rw [hmk]
    omega
  · intro s c h
    simp [choosePoNumber, h]
  · intro c
    rfl

/-- C7 witness: generating from config (PO-, next 7, format 0000) and a
supplied number PO-77. -/
theorem c7_witness :
    ((generateDocumentNumber ⟨"PO-", "", 7, "0000"⟩).1 =
      "PO-" ++ padStartZeros (toString (7 : Nat)) ("0000" : String).length ++ "" ∧
     (generateDocumentNumber ⟨"PO-", "", 7, "0000"⟩).2 = ⟨"PO-", "", 8, "0000"⟩) ∧
    choosePoNumber (some "PO-77") ⟨"PO-", "", 7, "0000"⟩ = ("PO-77", ⟨"PO-", "", 7, "0000"⟩) := by
  constructor
  · exact c7_document_number_generation.1 ⟨"PO-", "", 7, "0000"⟩
  · have h := c7_document_number_generation.2.2.1 "PO-77" ⟨"PO-", "", 7, "0000"⟩
      (by decide)
    rw [h]
    decide

/-- C8: every PATCH /purchase-orders/:id/status request that provides a
status or approval_status field is answered 500 — line 2028 references
the undefined identifiers mysql and dbConfig and throws before any
validation or update can run — never with a validation error and never
stamping or clearing the approver fields; only the empty-request 400
check is reachable. The unreachable logic at lines 2040-2084 would have
rejected a bogus status with InvalidStatus and stamped the approver on
APPROVED, exactly as the claim describes. -/
theorem c8_patch_throws_before_validation :
    (∀ (hdr : POHeaderRow) (s a : Option String) (uid : Option Nat),
        ¬(optProvided s = none ∧ optProvided a = none) →
        patchPOStatusRoute hdr s a uid = Except.error (500, "ReferenceError")) ∧
    (∀ (hdr : POHeaderRow) (uid : Option Nat),
        patchPOStatusRoute hdr none none uid = Except.error (400, "NoStatusFields")) ∧
    (∀ (hdr hdr2 : POHeaderRow) (s a : Option String) (uid : Option Nat),
        patchPOStatusRoute hdr s a uid ≠ Except.ok hdr2) ∧
    patchPOStatusRoute ⟨"DRAFT", "PENDING", none, false⟩ (some "bogus") none none =
      Except.error (500, "ReferenceError") ∧
    patchPOStatus ⟨"DRAFT", "PENDING", none, false⟩ (some "bogus") none none =
      Except.error "InvalidStatus" ∧
    patchPOStatusRoute ⟨"DRAFT", "PENDING", none, false⟩ none (some "approved") (some 9) =
      Except.error (500, "ReferenceError") ∧
    patchPOStatus ⟨"DRAFT", "PENDING", none, false⟩ none (some "approved") (some 9) =
      Except.ok ⟨"DRAFT", "APPROVED", some 9, true⟩ := by
  refine ⟨?_, ?_, ?_, ?_, ?_, ?_, ?_⟩
  · intro hdr s a uid hne
    cases hs : optProvided s with
    | none =>
      cases ha : optProvided a with
      | none => exact absurd ⟨hs, ha⟩ hne
      | some x => simp [patchPOStatusRoute, hs, ha]
    | some x =>
      cases ha : optProvided a with
      | none => simp [patchPOStatusRoute, hs, ha]
      | some y => simp [patchPOStatusRoute, hs, ha]
  · intro hdr uid
    rfl
  · intro hdr hdr2 s a uid
    cases hs : optProvided s <;> cases ha : optProvided a <;>
      simp [patchPOStatusRoute, hs, ha]
  · rfl
  · rfl
  · rfl
  · rfl

/-- C8 witness: a request carrying the valid status value RELEASED is
still answered 500 by the route. -/
theorem c8_patch_witness :
    patchPOStatusRoute ⟨"DRAFT", "PENDING", none, false⟩ (some "RELEASED") none none =
      Except.error (500, "ReferenceError") :=
  c8_patch_throws_before_validation.1 ⟨"DRAFT", "PENDING", none, false⟩ (some "RELEASED")
    none none (by decide)

/-- C9: the catch block of POST /agreements (and of PUT /receipts/:id)
responds 500 without releasing the pooled connection, so the
thrown-exception exit path holds the connection forever, while the
validation-failure and success paths do release it. -/
theorem c9_connection_release_paths :
    (RouteEff.released ∉ postAgreementsEffects ⟨true, true, true, true, false⟩) ∧
    (RouteEff.responded 500 ∈ postAgreementsEffects ⟨true, true, true, true, false⟩) ∧
    (RouteEff.released ∈ postAgreementsEffects ⟨false, true, true, false, false⟩) ∧
    (RouteEff.released ∈ postAgreementsEffects ⟨true, true, false, false, false⟩) ∧
    (RouteEff.released ∈ postAgreementsEffects ⟨true, true, true, false, false⟩) ∧
    (RouteEff.released ∉ putReceiptEffects ⟨true, true⟩) ∧
    (RouteEff.responded 500 ∈ putReceiptEffects ⟨true, true⟩) ∧
    (RouteEff.released ∈ putReceiptEffects ⟨false, false⟩) ∧
    (RouteEff.released ∈ putReceiptEffects ⟨true, false⟩) := by
  refine ⟨?_, ?_, ?_, ?_, ?_, ?_, ?_, ?_, ?_⟩ <;> decide
